import Mathlib

/-
Verification of the dashboard data pipeline.

The development shallowly embeds the pipeline components:
  * the pivot/template aligner (pivot_station in process_data_fintech.py,
    together with the generated_at/pipeline_version append performed in main),
  * the schema normalizer (normalize in process_data_fintech.py,
    normalize_raw_df in process_data_improved.py,
    ensure_datetime_column in preprocess_upload.py),
  * the audit row hash (compute_row_hash in process_data_fintech.py),
  * the job registry (safe_set_job / safe_get_job in web_app.py),
  * the worker loop (worker_thread in web_app.py),
  * the pidfile singleton guard (start_background_worker_once_with_pidfile
    and is_pid_running in web_app.py),
  * the dashboard melt step (prepare in generate_dashboard.py).

Modelling conventions:
  * machine floats are modelled by rationals (no claim depends on rounding);
  * timestamps are modelled at date precision as ISO date strings
    "YYYY-MM-DD" (the pipeline truncates to calendar dates before any
    grouping), except for the synthetic-timestamp component where seconds
    since the civil epoch are needed to speak about spacing and direction;
  * pandas null values (NaN / NaT) are modelled by Option.none;
  * tables are lists of rows over explicit headers.
-/

/-- A cell of a wide-form output table: a text cell or a nullable numeric cell. -/
inductive Cell where
  | str (s : String)
  | num (q : Option ℚ)
  deriving DecidableEq

/-- A canonical long-form record as produced by the schema normalizer:
station id, nullable date-precision timestamp, metric code, nullable value. -/
structure CanonRecord where
  station : String
  dateTime : Option String
  pcode : String
  result : Option ℚ
  deriving DecidableEq

/-- A wide-form table: ordered column names and rows of cells. -/
structure PTable where
  header : List String
  rows : List (List Cell)
  deriving DecidableEq

/-- Insert a string into a sorted list, keeping it sorted. -/
def insertSorted (x : String) : List String → List String
  | [] => [x]
  | y :: ys => if x ≤ y then x :: y :: ys else y :: insertSorted x ys

/-- Insertion sort on strings; models the ascending key order produced by
pandas groupby/pivot/sort_index. -/
def sortStrings (l : List String) : List String := l.foldr insertSorted []

/-- Aggregation-name lookup, as the dict get with default mean:
unknown names fall back to mean. -/
def selectAgg (agg : String) : String :=
  if agg = "mean" ∨ agg = "median" ∨ agg = "sum" ∨ agg = "first" then agg else "mean"

/-- Insert a rational into a sorted list, keeping it sorted. -/
def insertSortedRat (x : ℚ) : List ℚ → List ℚ
  | [] => [x]
  | y :: ys => if x ≤ y then x :: y :: ys else y :: insertSortedRat x ys

/-- Insertion sort on rationals, used by the median aggregate. -/
def sortRats (l : List ℚ) : List ℚ := l.foldr insertSortedRat []

/-- Mean of a list of rationals; none on the empty list (pandas mean of an
all-null group is null). -/
def listMean (xs : List ℚ) : Option ℚ :=
  if xs.isEmpty then none else some (xs.sum / (xs.length : ℚ))

/-- Median with linear interpolation on the sorted values, as pandas computes
it; none on the empty list. -/
def listMedian (xs : List ℚ) : Option ℚ :=
  let s := sortRats xs
  let n := s.length
  if n = 0 then none
  else if n % 2 = 1 then some (s.getD (n / 2) 0)
  else some ((s.getD (n / 2 - 1) 0 + s.getD (n / 2) 0) / 2)

/-- Apply a (already defaulted) aggregate name to the values of one
(date, metric) group. Null entries are skipped, matching pandas skipna
semantics: mean/median/first of an all-null group are null, sum is 0. -/
def aggApply (f : String) (vals : List (Option ℚ)) : Option ℚ :=
  let xs := vals.filterMap id
  if f = "median" then listMedian xs
  else if f = "sum" then some xs.sum
  else if f = "first" then xs.head?
  else listMean xs

/-- The pivot/template aligner, pivot_station of process_data_fintech.py.
Filters to the target station; on an empty match returns an empty table whose
header is Dates followed by the template columns (note: no Station column in
this branch). Otherwise groups by (date, metric code) dropping null dates,
aggregates the values, pivots metric codes to columns (sorted when no
template is given), reindexes to the template when one is supplied, sorts
rows by ascending date, and prepends the constant Station column. -/
def pivot_station (recs : List CanonRecord) (station : String)
    (template_cols : Option (List String)) (agg : String) : PTable :=
  let sub := recs.filter (fun r => r.station == station)
  if sub.isEmpty then
    { header := "Dates" :: (match template_cols with | some t => t | none => []),
      rows := [] }
  else
    let aggfunc := selectAgg agg
    let dates := sortStrings (sub.filterMap (fun r => r.dateTime)).dedup
    let observed := sortStrings ((sub.filter (fun r => r.dateTime.isSome)).map (fun r => r.pcode)).dedup
    let cols := match template_cols with | some t => t | none => observed
    let cellVal := fun (d c : String) =>
      let vals := (sub.filter (fun r => r.dateTime == some d && r.pcode == c)).map (fun r => r.result)
      if vals.isEmpty then none else aggApply aggfunc vals
    { header := "Station" :: "Dates" :: cols,
      rows := dates.map (fun d =>
        Cell.str station :: Cell.str d :: cols.map (fun c => Cell.num (cellVal d c))) }

/-- The append performed by main of process_data_fintech.py after pivoting:
two constant columns generated_at and pipeline_version are added to the
table. -/
def addMetadata (t : PTable) (generatedAt version : String) : PTable :=
  { header := t.header ++ ["generated_at", "pipeline_version"],
    rows := t.rows.map (fun r => r ++ [Cell.str generatedAt, Cell.str version]) }

/-- Parse an ISO calendar-date string "YYYY-MM-DD" into (year, month, day).
Models the date parsing done by pandas to_datetime, restricted to the ISO
date-precision strings that the modelled tables carry; anything else is
unparseable. -/
def parseISODate (s : String) : Option (Nat × Nat × Nat) :=
  match s.data with
  | [y1, y2, y3, y4, h1, m1, m2, h2, d1, d2] =>
    if h1 = '-' ∧ h2 = '-' ∧ ([y1, y2, y3, y4, m1, m2, d1, d2].all Char.isDigit) then
      let y := ((y1.toNat - 48) * 10 + (y2.toNat - 48)) * 100
        + (y3.toNat - 48) * 10 + (y4.toNat - 48)
      let m := (m1.toNat - 48) * 10 + (m2.toNat - 48)
      let d := (d1.toNat - 48) * 10 + (d2.toNat - 48)
      if 1 ≤ m ∧ m ≤ 12 ∧ 1 ≤ d ∧ d ≤ 31 then some (y, m, d) else none
    else none
  | _ => none

/-- Datetime coercion at date precision, modelling pd.to_datetime with
errors coerce: a valid ISO date string is kept, anything else becomes
null (NaT). -/
def parseTs (s : String) : Option String :=
  if (parseISODate s).isSome then some s else none

/-- Text content of a cell (the Dates cells of a wide table are text). -/
def cellText : Cell → String
  | Cell.str s => s
  | Cell.num _ => ""

/-- Numeric content of a cell; the metric cells consumed by the melt step
are numeric. -/
def cellToQ : Cell → Option ℚ
  | Cell.str _ => none
  | Cell.num q => q

/-- Cell of a named column in a row of a wide table. -/
def getCell (df : PTable) (row : List Cell) (c : String) : Cell :=
  row.getD (df.header.indexOf c) (Cell.num none)

/-- The melt step, prepare of generate_dashboard.py: every column other than
Station, Dates, generated_at and pipeline_version is melted into long-form
(date, metric code, value) records, the Station column is set to the given
station and Dates are parsed as datetimes. The melted frame is rendered
directly as canonical records (Station, Dates, PCode, Value map to station,
dateTime, pcode, result). -/
def prepare (df : PTable) (station : String) : List CanonRecord :=
  let cols := df.header.filter
    (fun c => !(["Station", "Dates", "generated_at", "pipeline_version"].contains c))
  cols.flatMap (fun c => df.rows.map (fun row =>
    { station := station,
      dateTime := parseTs (cellText (getCell df row "Dates")),
      pcode := c,
      result := cellToQ (getCell df row c) }))

/-- A job registry entry: a finite map from field names to (string-rendered)
field values, as the per-job dict stored in the jobs global of web_app.py. -/
abbrev JobEntry := List (String × String)

/-- The job registry: a finite map from job ids to entries, as the jobs
global dict of web_app.py. Lookup takes the first binding; the operations
below keep keys unique. -/
abbrev Registry := List (String × JobEntry)

/-- Set one field of an entry, as a Python dict key assignment: the new
binding replaces any previous binding of the same key. -/
def setField (e : JobEntry) (k v : String) : JobEntry :=
  (k, v) :: e.filter (fun p => !(p.1 == k))

/-- Merge a field assignment into an entry, as dict.update(kwargs): each
listed field is set in order. -/
def updateFields (e : JobEntry) : List (String × String) → JobEntry
  | [] => e
  | (k, v) :: rest => updateFields (setField e k v) rest

/-- safe_set_job of web_app.py: jobs.setdefault(job_id, empty).update(kwargs).
The entry for the job id is created if absent and the listed fields are
merged into it; every other entry is untouched. The lock serializes calls,
so the operation is modelled as an atomic registry-to-registry function. -/
def safe_set_job (reg : Registry) (jobId : String) (fields : List (String × String)) : Registry :=
  let current := (reg.lookup jobId).getD []
  (jobId, updateFields current fields) :: reg.filter (fun p => !(p.1 == jobId))

/-- safe_get_job of web_app.py: jobs.get(job_id, empty).copy(). Returns the
stored entry for the job id, or the empty entry as the not-found signal. The
Python-level .copy() makes the returned dict an isolated snapshot; values are
immutable here, so the copy is the identity of the looked-up value. -/
def safe_get_job (reg : Registry) (jobId : String) : JobEntry :=
  (reg.lookup jobId).getD []

/-- Field of a job entry. -/
def lookupField (e : JobEntry) (k : String) : Option String := e.lookup k

/-- Outcome of one external pipeline stage as observed by the worker loop:
the exit code of the finished subprocess, a timeout
(subprocess.TimeoutExpired), or an unexpected exception. -/
inductive StageResult where
  | exitCode (c : Int)
  | timeout
  | raises
  deriving DecidableEq

/-- A queued job together with the behavior of its two pipeline stages
(normalize+pivot, then visualization). -/
structure JobSpec where
  jobId : String
  stage1 : StageResult
  stage2 : StageResult
  deriving DecidableEq

/-- One iteration of worker_thread of web_app.py for a claimed job: mark it
running, run the normalize+pivot stage (recording its exit code); on non-zero
exit mark failed and stop; otherwise run the visualization stage (recording
its exit code); on non-zero exit mark failed, else mark done. A timeout in
either stage is caught by the TimeoutExpired handler and marks failed; an
unexpected exception is caught by the generic handler and marks error. The
wall-clock fields (started_at, finished_at) and the stdout/stderr excerpts
the source also records carry no information for the claims and are left
out of the model. -/
def processJob (reg : Registry) (j : JobSpec) : Registry :=
  let reg1 := safe_set_job reg j.jobId [("status", "running")]
  match j.stage1 with
  | StageResult.timeout =>
      safe_set_job reg1 j.jobId [("status", "failed"), ("error", "timeout")]
  | StageResult.raises =>
      safe_set_job reg1 j.jobId [("status", "error")]
  | StageResult.exitCode c =>
    let reg2 := safe_set_job reg1 j.jobId [("proc_returncode", toString c)]
    if c ≠ 0 then
      safe_set_job reg2 j.jobId [("status", "failed"), ("error", "process_data_fintech failed")]
    else
      match j.stage2 with
      | StageResult.timeout =>
          safe_set_job reg2 j.jobId [("status", "failed"), ("error", "timeout")]
      | StageResult.raises =>
          safe_set_job reg2 j.jobId [("status", "error")]
      | StageResult.exitCode c2 =>
        let reg3 := safe_set_job reg2 j.jobId [("gen_returncode", toString c2)]
        if c2 ≠ 0 then
          safe_set_job reg3 j.jobId [("status", "failed"), ("error", "generate_dashboard failed")]
        else
          safe_set_job reg3 j.jobId [("status", "done")]

/-- The worker loop of web_app.py: dequeue jobs in order and process each one
exactly once, continuing with the rest of the queue whatever the outcome of
the current job. The shutdown sentinel is modelled by the end of the queue
list. -/
def worker_thread (queue : List JobSpec) (reg : Registry) : Registry :=
  match queue with
  | [] => reg
  | j :: rest => worker_thread rest (processJob reg j)

/-- The terminal status the spec assigns to a job: a non-zero exit code or a
timeout in either stage gives failed, an unexpected exception gives error,
and two clean stages give done. This definition follows the words of the
spec and is compared with the worker loop model. -/
def expectedFinalStatus (j : JobSpec) : String :=
  match j.stage1 with
  | StageResult.timeout => "failed"
  | StageResult.raises => "error"
  | StageResult.exitCode c =>
    if c ≠ 0 then "failed"
    else
      match j.stage2 with
      | StageResult.timeout => "failed"
      | StageResult.raises => "error"
      | StageResult.exitCode c2 => if c2 ≠ 0 then "failed" else "done"

/-- State of the singleton guard: the pidfile (absent, or present with the
parse of its text), the set of currently alive process ids, and how many
consumer threads are running. -/
structure GuardState where
  pidfile : Option (Option Nat)
  alive : List Nat
  consumers : Nat
  deriving DecidableEq

/-- is_pid_running of web_app.py: a signal-0 liveness probe, modelled as
membership in the alive set. -/
def is_pid_running (s : GuardState) (pid : Nat) : Bool := s.alive.contains pid

/-- start_background_worker_once_with_pidfile of web_app.py. If the pidfile
exists and records an alive (and truthy, hence non-zero) pid, decline and
return false without starting a thread. Otherwise remove any stale file,
write this process id, start the consumer thread and return true. The
pidfile-write failure branches (permission errors) are outside the model,
which assumes the write succeeds. -/
def start_background_worker_once_with_pidfile (s : GuardState) (selfPid : Nat) :
    Bool × GuardState :=
  match s.pidfile with
  | some (some p) =>
    if p ≠ 0 && is_pid_running s p then (false, s)
    else (true, { s with pidfile := some (some selfPid), consumers := s.consumers + 1 })
  | some none => (true, { s with pidfile := some (some selfPid), consumers := s.consumers + 1 })
  | none => (true, { s with pidfile := some (some selfPid), consumers := s.consumers + 1 })

/-- A raw input table before normalization: column names as read from the
file, and rows of string cells. -/
structure RawTable where
  header : List String
  rows : List (List String)
  deriving DecidableEq

/-- Whitespace strip on both ends, modelling the Python str.strip used on
column names, codes and station ids (written on character lists so that it
evaluates by kernel reduction). -/
def stripStr (s : String) : String :=
  String.mk (((s.data.dropWhile Char.isWhitespace).reverse.dropWhile Char.isWhitespace).reverse)

/-- Column names after the header strip performed first by normalize. -/
def strippedHeader (t : RawTable) : List String := t.header.map stripStr

/-- Cell of a named column (after header stripping) in a raw row. -/
def rawCell (t : RawTable) (row : List String) (c : String) : String :=
  row.getD ((strippedHeader t).indexOf c) ""

/-- Digits of a decimal literal folded into a natural number. -/
def digitsToNat (l : List Char) : Nat :=
  l.foldl (fun acc c => acc * 10 + (c.toNat - 48)) 0

/-- Numeric coercion, modelling pd.to_numeric with errors coerce on decimal
literals: an optional sign, an integer part and an optional fraction part
(at least one of the two non-empty, all digits) parse to a rational, and
anything else becomes null. -/
def parseNum (s : String) : Option ℚ :=
  let chars := (stripStr s).data
  let signed := match chars with
    | c :: r => if c = '-' then (true, r) else if c = '+' then (false, r) else (false, chars)
    | [] => (false, chars)
  let intPart := signed.2.takeWhile (fun c => !(c == '.'))
  let rest := signed.2.dropWhile (fun c => !(c == '.'))
  let fracPart := rest.drop 1
  if rest.length ≤ 1 ∧ (intPart ≠ [] ∨ fracPart ≠ [])
      ∧ (intPart ++ fracPart).all Char.isDigit then
    let mag : ℚ := (digitsToNat intPart : ℚ)
      + (digitsToNat fracPart : ℚ) / ((10 : ℚ) ^ fracPart.length)
    some (if signed.1 then -mag else mag)
  else none

/-- A normalized record row, the typed output of normalize: coerced
timestamp, coerced numeric value, stripped metric code and station id. -/
structure NormRow where
  dateTime : Option String
  result : Option ℚ
  pcode : String
  station : String
  deriving DecidableEq

namespace Fintech

/-- normalize of process_data_fintech.py. Column names are stripped; then the
four canonical columns are read in source order Date_Time, Result, PCode,
Station_ID — reading a missing column raises a KeyError, modelled as the
error case naming the missing key. With all four present the function never
raises: timestamps and values are coerced (unparseable entries become null)
and the code and station columns are stringified and stripped; no row is
dropped. Extra columns are untouched and carry no information for the
claims, so the output keeps the four canonical fields per row. -/
def normalize (t : RawTable) : Except String (List NormRow) :=
  let hdr := strippedHeader t
  if ¬ hdr.contains "Date_Time" then Except.error "KeyError: Date_Time"
  else if ¬ hdr.contains "Result" then Except.error "KeyError: Result"
  else if ¬ hdr.contains "PCode" then Except.error "KeyError: PCode"
  else if ¬ hdr.contains "Station_ID" then Except.error "KeyError: Station_ID"
  else Except.ok (t.rows.map (fun row =>
    { dateTime := parseTs (rawCell t row "Date_Time"),
      result := parseNum (rawCell t row "Result"),
      pcode := stripStr (rawCell t row "PCode"),
      station := stripStr (rawCell t row "Station_ID") }))

end Fintech

/-- normalize_raw_df of process_data_improved.py; its body is line for line
the body of normalize of process_data_fintech.py. -/
def normalize_raw_df (t : RawTable) : Except String (List NormRow) :=
  let hdr := strippedHeader t
  if ¬ hdr.contains "Date_Time" then Except.error "KeyError: Date_Time"
  else if ¬ hdr.contains "Result" then Except.error "KeyError: Result"
  else if ¬ hdr.contains "PCode" then Except.error "KeyError: PCode"
  else if ¬ hdr.contains "Station_ID" then Except.error "KeyError: Station_ID"
  else Except.ok (t.rows.map (fun row =>
    { dateTime := parseTs (rawCell t row "Date_Time"),
      result := parseNum (rawCell t row "Result"),
      pcode := stripStr (rawCell t row "PCode"),
      station := stripStr (rawCell t row "Station_ID") }))

/-- Days from 1970-01-01 to the given civil date (proleptic Gregorian),
the standard civil-from-days inverse used to give the synthetic timestamps a
concrete epoch second value; used only at dates after 1970 here, where Int
truncated division agrees with floor division. -/
def daysFromCivil (y m d : Int) : Int :=
  let y2 := if m ≤ 2 then y - 1 else y
  let era := y2 / 400
  let yoe := y2 - era * 400
  let mp := if m > 2 then m - 3 else m + 9
  let doy := (153 * mp + 2) / 5 + d - 1
  let doe := yoe * 365 + yoe / 4 - yoe / 100 + doy
  era * 146097 + doe - 719468

/-- Epoch seconds of 2025-01-01 00:00, the fixed start date of the synthetic
date_range in ensure_datetime_column. -/
def secs2025 : Int := 86400 * daysFromCivil 2025 1 1

/-- Epoch seconds of a parsed ISO date, modelling the datetime value that
pd.to_datetime assigns to a date-precision string. -/
def parseDateSec (s : String) : Option Int :=
  (parseISODate s).map (fun v =>
    86400 * daysFromCivil (Int.ofNat v.1) (Int.ofNat v.2.1) (Int.ofNat v.2.2))

/-- Substring test on character lists, structural form of the membership
test the candidate scan performs with the Python in operator. -/
def containsSub (sub : List Char) : List Char → Bool
  | [] => sub.isEmpty
  | c :: rest => sub.isPrefixOf (c :: rest) || containsSub sub rest

/-- The keyword list of the timestamp-column scan of ensure_datetime_column. -/
def timestampKeywords : List String :=
  ["date", "time", "timestamp", "created", "datetime"]

/-- Lowercasing on character lists, modelling str.lower (written so that it
evaluates by kernel reduction). -/
def lowerStr (s : String) : String := String.mk (s.data.map Char.toLower)

/-- A column name is timestamp-like when its lowercase form has one of the
keywords as a substring. -/
def isTimestampLike (c : String) : Bool :=
  timestampKeywords.any (fun x => containsSub x.data (lowerStr c).data)

/-- Result of ensure_datetime_column: the surviving header and rows, and the
Date_Time column the call created (none when the input already had a
Date_Time column, which is returned untouched). -/
structure DtResult where
  header : List String
  rows : List (List String)
  newDateTime : Option (List (Option Int))
  deriving DecidableEq

/-- ensure_datetime_column of preprocess_upload.py. A table that already has
a Date_Time column is returned unchanged. Otherwise the first timestamp-like
column (by the keyword scan, in column order) is parsed into a new Date_Time
column and rows whose parse failed are dropped; with no candidate at all a
synthetic hourly Date_Time column starting at 2025-01-01 is created, one
entry per row, and the not-null filter then keeps every row. -/
def ensure_datetime_column (t : RawTable) : DtResult :=
  if t.header.contains "Date_Time" then
    { header := t.header, rows := t.rows, newDateTime := none }
  else
    match t.header.filter isTimestampLike with
    | chosen :: _ =>
      let parsed := t.rows.map (fun row =>
        parseDateSec (row.getD (t.header.indexOf chosen) ""))
      let kept := (t.rows.zip parsed).filter (fun p => p.2.isSome)
      { header := t.header, rows := kept.map Prod.fst,
        newDateTime := some (kept.map Prod.snd) }
    | [] =>
      { header := t.header, rows := t.rows,
        newDateTime := some ((List.range t.rows.length).map
          (fun i => some (secs2025 + 3600 * Int.ofNat i))) }

/-- A Python value stored in a row, as far as the audit hash is concerned:
a string or an integer. The hash serializes values through str(). -/
inductive PyVal where
  | s (v : String)
  | i (v : Int)
  deriving DecidableEq

/-- The str() rendering used by the f-string of compute_row_hash. -/
def pyStr : PyVal → String
  | PyVal.s v => v
  | PyVal.i v => toString v

/-- A pandas row as compute_row_hash reads it: a partial map from column
labels to values (row.get with default). -/
abbrev PyRow := List (String × PyVal)

/-- row.get(key, default empty string) followed by the f-string rendering. -/
def rowGetStr (row : PyRow) (k : String) : String :=
  match row.lookup k with
  | some v => pyStr v
  | none => ""

/-- The pipe-joined serialization that compute_row_hash feeds to SHA-256:
the four fields Station_ID, Date_Time, PCode, Result read with default
empty string. -/
def rowHashPreimage (row : PyRow) : String :=
  rowGetStr row "Station_ID" ++ "|" ++ rowGetStr row "Date_Time" ++ "|"
    ++ rowGetStr row "PCode" ++ "|" ++ rowGetStr row "Result"

/-- Bytes of a string under UTF-8, restricted to the ASCII payloads the
pipeline serializes (on ASCII the UTF-8 encoding is the code point). -/
def toBytes (s : String) : List Nat := s.data.map Char.toNat

/-- Truncation to a 32-bit word. -/
def w32 (x : Nat) : Nat := x % 4294967296

/-- 32-bit right rotation. -/
def rotr (n x : Nat) : Nat := w32 ((x >>> n) ||| (x <<< (32 - n)))

/-- Big-endian byte rendering of a number on n bytes. -/
def bytesBE (n : Nat) (x : Nat) : List Nat :=
  (List.range n).map (fun i => (x >>> (8 * (n - 1 - i))) % 256)

/-- SHA-256 message padding: a 1 bit, zeros up to 56 mod 64 bytes, and the
bit length on 8 big-endian bytes. -/
def padMessage (msg : List Nat) : List Nat :=
  let z := (119 - msg.length % 64) % 64
  msg ++ [128] ++ List.replicate z 0 ++ bytesBE 8 (8 * msg.length)

/-- Split a byte list into 64-byte chunks. -/
def chunks64 (l : List Nat) : List (List Nat) :=
  if h : l = [] then []
  else l.take 64 :: chunks64 (l.drop 64)
termination_by l.length
decreasing_by
  have hl : 0 < l.length := List.length_pos.2 h
  simp only [List.length_drop]
  omega

/-- The 16 initial 32-bit big-endian words of a 64-byte chunk. -/
def wordsBE (chunk : List Nat) : List Nat :=
  (List.range 16).map (fun i =>
    ((chunk.getD (4 * i) 0) <<< 24) + ((chunk.getD (4 * i + 1) 0) <<< 16)
      + ((chunk.getD (4 * i + 2) 0) <<< 8) + chunk.getD (4 * i + 3) 0)

/-- One extension step of the SHA-256 message schedule. -/
def scheduleStep (w : List Nat) : List Nat :=
  let i := w.length
  let x := w.getD (i - 15) 0
  let y := w.getD (i - 2) 0
  let s0 := rotr 7 x ^^^ rotr 18 x ^^^ (x >>> 3)
  let s1 := rotr 17 y ^^^ rotr 19 y ^^^ (y >>> 10)
  w ++ [w32 (w.getD (i - 16) 0 + s0 + w.getD (i - 7) 0 + s1)]

/-- Iterate the schedule extension. -/
def buildSchedule (w : List Nat) : Nat → List Nat
  | 0 => w
  | n + 1 => buildSchedule (scheduleStep w) n

/-- The SHA-256 round constants. -/
def sha256K : List Nat :=
  [1116352408, 1899447441, 3049323471, 3921009573, 961987163,
   1508970993, 2453635748, 2870763221, 3624381080, 310598401,
   607225278, 1426881987, 1925078388, 2162078206, 2614888103,
   3248222580, 3835390401, 4022224774, 264347078, 604807628,
   770255983, 1249150122, 1555081692, 1996064986, 2554220882,
   2821834349, 2952996808, 3210313671, 3336571891, 3584528711,
   113926993, 338241895, 666307205, 773529912, 1294757372,
   1396182291, 1695183700, 1986661051, 2177026350, 2456956037,
   2730485921, 2820302411, 3259730800, 3345764771, 3516065817,
   3600352804, 4094571909, 275423344, 430227734, 506948616,
   659060556, 883997877, 958139571, 1322822218, 1537002063,
   1747873779, 1955562222, 2024104815, 2227730452, 2361852424,
   2428436474, 2756734187, 3204031479, 3329325298]

/-- The SHA-256 initial hash state. -/
def sha256H0 : List Nat :=
  [1779033703, 3144134277, 1013904242, 2773480762,
   1359893119, 2600822924, 528734635, 1541459225]

/-- One SHA-256 compression round on the eight working registers. -/
def sha256Round (st : List Nat) (ki wi : Nat) : List Nat :=
  let a := st.getD 0 0
  let b := st.getD 1 0
  let c := st.getD 2 0
  let d := st.getD 3 0
  let e := st.getD 4 0
  let f := st.getD 5 0
  let g := st.getD 6 0
  let h := st.getD 7 0
  let bigS1 := rotr 6 e ^^^ rotr 11 e ^^^ rotr 25 e
  let ch := (e &&& f) ^^^ ((4294967295 ^^^ e) &&& g)
  let temp1 := w32 (h + bigS1 + ch + ki + wi)
  let bigS0 := rotr 2 a ^^^ rotr 13 a ^^^ rotr 22 a
  let maj := (a &&& b) ^^^ (a &&& c) ^^^ (b &&& c)
  let temp2 := w32 (bigS0 + maj)
  [w32 (temp1 + temp2), a, b, c, w32 (d + temp1), e, f, g]

/-- Run the 64 compression rounds over the round constants and schedule. -/
def sha256Rounds (st : List Nat) : List Nat → List Nat → List Nat
  | k :: ks, w :: ws => sha256Rounds (sha256Round st k w) ks ws
  | _, _ => st

/-- Process one 64-byte chunk into the running hash state. -/
def processChunk (hs : List Nat) (chunk : List Nat) : List Nat :=
  let w := buildSchedule (wordsBE chunk) 48
  let st := sha256Rounds hs sha256K w
  (List.range 8).map (fun i => w32 (hs.getD i 0 + st.getD i 0))

/-- SHA-256 of a byte list, as 32 digest bytes. -/
def sha256Bytes (msg : List Nat) : List Nat :=
  ((chunks64 (padMessage msg)).foldl processChunk sha256H0).flatMap (bytesBE 4)

/-- A lowercase hexadecimal digit. -/
def hexDigit (n : Nat) : Char :=
  if n < 10 then Char.ofNat (48 + n) else Char.ofNat (87 + n)

/-- Lowercase hexadecimal rendering of a byte list, as hexdigest produces. -/
def toHex (bytes : List Nat) : String :=
  String.mk (bytes.flatMap (fun b => [hexDigit (b / 16), hexDigit (b % 16)]))

/-- The SHA-256 hex digest of the UTF-8 bytes of a string, as
hashlib.sha256(s.encode()).hexdigest(). -/
def sha256hex (s : String) : String := toHex (sha256Bytes (toBytes s))

/-- compute_row_hash of process_data_fintech.py: the SHA-256 hex digest of
the pipe-joined string form of the four fields Station_ID, Date_Time, PCode
and Result, each read from the row with default empty string. -/
def compute_row_hash (row : PyRow) : String := sha256hex (rowHashPreimage row)

/-- Claim C4: for the canonical input with two records for station CT, date
2021-01-01, metric P1 and values 5 and 7, pivoting station CT with the mean
aggregate yields exactly one row, with Dates 2021-01-01 and P1 equal to 6:
duplicates within a (date, metric) group are combined by the aggregate. -/
theorem pivot_station_mean_combines_duplicates :
    pivot_station
      [⟨"CT", some "2021-01-01", "P1", some 5⟩, ⟨"CT", some "2021-01-01", "P1", some 7⟩]
      "CT" none "mean"
    = { header := ["Station", "Dates", "P1"],
        rows := [[Cell.str "CT", Cell.str "2021-01-01", Cell.num (some 6)]] } := by
  norm_num [pivot_station, selectAgg, aggApply, listMean, sortStrings, insertSorted,
    List.dedup, List.filter, List.filterMap]
  decide

/-- Claim C6: round-trip. Starting from the wide table with one row
Station CT, Dates 2021-01-01, A = 1, B = 2, melting it with prepare and then
pivoting the melted records with template [A, B] and aggregation mean
reproduces the row A = 1, B = 2 exactly. -/
theorem melt_pivot_round_trip :
    pivot_station
      (prepare
        { header := ["Station", "Dates", "A", "B"],
          rows := [[Cell.str "CT", Cell.str "2021-01-01", Cell.num (some 1), Cell.num (some 2)]] }
        "CT")
      "CT" (some ["A", "B"]) "mean"
    = { header := ["Station", "Dates", "A", "B"],
        rows := [[Cell.str "CT", Cell.str "2021-01-01", Cell.num (some 1), Cell.num (some 2)]] } := by
  have hp : prepare
      { header := ["Station", "Dates", "A", "B"],
        rows := [[Cell.str "CT", Cell.str "2021-01-01", Cell.num (some 1), Cell.num (some 2)]] }
      "CT"
      = [⟨"CT", some "2021-01-01", "A", some 1⟩, ⟨"CT", some "2021-01-01", "B", some 2⟩] := by
    decide
  rw [hp]
  norm_num [pivot_station, selectAgg, aggApply, listMean, sortStrings, insertSorted,
    List.dedup, List.filter, List.filterMap]
  decide

/-- Claim C1 counterexample: with no record matching the station, the pivoted
output (after the generated_at/pipeline_version append) does not have the
columns [Station, Dates] + T + [generated_at, pipeline_version]: the Station
column is missing from the empty-match branch. -/
theorem pivot_output_columns_counterexample :
    (addMetadata (pivot_station [] "CT" (some ["A"]) "mean") "G" "0.1.0").header
      = ["Dates", "A", "generated_at", "pipeline_version"]
    ∧ ¬ (addMetadata (pivot_station [] "CT" (some ["A"]) "mean") "G" "0.1.0").header
      = ["Station", "Dates", "A", "generated_at", "pipeline_version"] := by
  decide

/-- Claim C1 (amended): for every canonical record set and non-null template
T, when at least one record matches the station the pivoted output (after the
generated_at/pipeline_version append of main) has columns exactly
[Station, Dates] + T + [generated_at, pipeline_version], regardless of which
metric codes were observed; when no record matches, the output is an empty
table whose columns are [Dates] + T + [generated_at, pipeline_version] (the
Station column is absent in that branch). Observed codes not in T are dropped
(the columns are exactly the above), and a template column whose metric code
occurs in no record is all-null. -/
theorem pivot_output_columns_with_template
    (recs : List CanonRecord) (station : String) (T : List String)
    (agg generatedAt version : String) :
    ((recs.filter (fun r => r.station == station)) ≠ [] →
      (addMetadata (pivot_station recs station (some T) agg) generatedAt version).header
        = "Station" :: "Dates" :: (T ++ ["generated_at", "pipeline_version"]))
    ∧ ((recs.filter (fun r => r.station == station)) = [] →
      (addMetadata (pivot_station recs station (some T) agg) generatedAt version).header
        = "Dates" :: (T ++ ["generated_at", "pipeline_version"])
      ∧ (addMetadata (pivot_station recs station (some T) agg) generatedAt version).rows = [])
    ∧ (∀ c ∈ T, (∀ r ∈ recs, r.pcode ≠ c) →
        ∀ row ∈ (addMetadata (pivot_station recs station (some T) agg) generatedAt version).rows,
          row.getD (T.indexOf c + 2) (Cell.num none) = Cell.num none) := by
  refine ⟨?_, ?_, ?_⟩
  · intro h
    simp [pivot_station, addMetadata, List.isEmpty_iff, h]
  · intro h
    simp [pivot_station, addMetadata, List.isEmpty_iff, h]
  · intro c hc hnotc row hrow
    by_cases h : (recs.filter (fun r => r.station == station)) = []
    · simp [pivot_station, addMetadata, List.isEmpty_iff, h] at hrow
    · simp only [pivot_station, addMetadata, List.isEmpty_iff, h, if_false, List.mem_map] at hrow
      obtain ⟨a, ⟨d, hd, ha⟩, hrow2⟩ := hrow
      subst ha
      subst hrow2
      have hlt : T.indexOf c < T.length := List.indexOf_lt_length.2 hc
      have hfil : (recs.filter (fun r => r.station == station)).filter
          (fun r => r.dateTime == some d && r.pcode == c) = [] := by
        apply List.filter_eq_nil_iff.2
        intro r hr
        have hrecs : r ∈ recs := (List.mem_filter.1 hr).1
        simp [hnotc r hrecs]
      have h2 : List.indexOf c T + 2 = (List.indexOf c T + 1) + 1 := rfl
      simp only [List.cons_append, h2, List.getD_cons_succ]
      rw [List.getD_append _ _ _ _ (by simpa using hlt),
        List.getD_eq_getElem _ _ (by simpa using hlt),
        List.getElem_map, List.getElem_indexOf hlt]
      simp [hfil]

/-- Witness for the amended claim C1 at a concrete input: one matching record
for station CT with template [A], and, for the all-null part, template column
A with no matching metric code. -/
theorem pivot_output_columns_with_template_witness :
    (addMetadata (pivot_station [⟨"CT", some "2021-01-01", "P1", some 5⟩] "CT"
        (some ["A"]) "mean") "G" "V").header
      = "Station" :: "Dates" :: (["A"] ++ ["generated_at", "pipeline_version"]) :=
  (pivot_output_columns_with_template
    [⟨"CT", some "2021-01-01", "P1", some 5⟩] "CT" ["A"] "mean" "G" "V").1 (by decide)

/-- Filtering out the bindings of one key leaves lookups of other keys
unchanged. -/
theorem lookup_filter_key_ne {β : Type} (e : List (String × β)) {k k' : String}
    (h : k' ≠ k) :
    (e.filter (fun p => !(p.1 == k))).lookup k' = e.lookup k' := by
  induction e with
  | nil => rfl
  | cons p rest ih =>
    by_cases hp : p.1 = k
    · have h2 : (k' == p.1) = false := by simp [hp, h]
      have h3 : (k' == k) = false := by simp [h]
      simp [List.filter, hp, List.lookup, h2, h3, ih]
    · have h1 : (p.1 == k) = false := by simp [hp]
      cases hbeq : (k' == p.1) with
      | true => simp [List.filter, h1, List.lookup, hbeq]
      | false => simp [List.filter, h1, List.lookup, hbeq, ih]

/-- Setting a field makes that field hold the new value. -/
theorem lookup_setField_self (e : JobEntry) (k v : String) :
    lookupField (setField e k v) k = some v := by
  simp [lookupField, setField, List.lookup]

/-- Setting a field leaves every other field unchanged. -/
theorem lookup_setField_ne (e : JobEntry) (k v : String) {k' : String} (h : k' ≠ k) :
    lookupField (setField e k v) k' = lookupField e k' := by
  have hk : (k' == k) = false := by simp [h]
  simp [lookupField, setField, List.lookup, hk, lookup_filter_key_ne e h]

/-- Merging a field assignment leaves unlisted fields unchanged. -/
theorem lookup_updateFields_not_mem (e : JobEntry) (F : List (String × String))
    {k : String} (h : k ∉ F.map Prod.fst) :
    lookupField (updateFields e F) k = lookupField e k := by
  induction F generalizing e with
  | nil => rfl
  | cons p rest ih =>
    obtain ⟨k1, v1⟩ := p
    simp only [List.map_cons, List.mem_cons] at h
    push_neg at h
    rw [updateFields, ih _ h.2, lookup_setField_ne _ _ _ h.1]

/-- Merging a field assignment with distinct keys sets each listed field to
its listed value. -/
theorem lookup_updateFields_mem (e : JobEntry) (F : List (String × String))
    {k v : String} (hnodup : (F.map Prod.fst).Nodup) (hmem : (k, v) ∈ F) :
    lookupField (updateFields e F) k = some v := by
  induction F generalizing e with
  | nil => cases hmem
  | cons p rest ih =>
    obtain ⟨k1, v1⟩ := p
    simp only [List.map_cons, List.nodup_cons] at hnodup
    rcases List.mem_cons.1 hmem with heq | hrest
    · obtain ⟨rfl, rfl⟩ := Prod.mk.injEq .. ▸ heq
      have hk : k ∉ rest.map Prod.fst := by
        injection heq with h1 h2
        exact h1 ▸ hnodup.1
      rw [updateFields, lookup_updateFields_not_mem _ _ hk, lookup_setField_self]
    · rw [updateFields]
      exact ih _ hnodup.2 hrest

/-- After an upsert, reading the same job id gives the merged entry. -/
theorem safe_get_safe_set_self (reg : Registry) (jobId : String)
    (F : List (String × String)) :
    safe_get_job (safe_set_job reg jobId F) jobId
      = updateFields (safe_get_job reg jobId) F := by
  simp [safe_get_job, safe_set_job, List.lookup]

/-- After an upsert, reading any other job id is unchanged. -/
theorem safe_get_safe_set_ne (reg : Registry) (jobId : String)
    (F : List (String × String)) {j' : String} (h : j' ≠ jobId) :
    safe_get_job (safe_set_job reg jobId F) j' = safe_get_job reg j' := by
  have hk : (j' == jobId) = false := by simp [h]
  simp [safe_get_job, safe_set_job, List.lookup, hk, lookup_filter_key_ne reg h]

/-- Claim C8: the registry update safe_set_job sets exactly the listed fields
on the entry of the given job id (creating the entry if absent) and leaves
every unlisted field of that entry and every other job untouched; the
registry read safe_get_job returns the stored entry by value (a snapshot in
the functional model, in which no alias to registry state exists) and the
empty entry as the explicit not-found signal for an absent job id. -/
theorem job_registry_upsert_and_snapshot
    (reg : Registry) (jobId : String) (F : List (String × String))
    (k v j' : String) :
    ((F.map Prod.fst).Nodup → (k, v) ∈ F →
      lookupField (safe_get_job (safe_set_job reg jobId F) jobId) k = some v)
    ∧ (k ∉ F.map Prod.fst →
      lookupField (safe_get_job (safe_set_job reg jobId F) jobId) k
        = lookupField (safe_get_job reg jobId) k)
    ∧ (j' ≠ jobId → safe_get_job (safe_set_job reg jobId F) j' = safe_get_job reg j')
    ∧ (reg.lookup jobId = none → safe_get_job reg jobId = [])
    ∧ (∀ e, reg.lookup jobId = some e → safe_get_job reg jobId = e) := by
  refine ⟨?_, ?_, ?_, ?_, ?_⟩
  · intro hnodup hmem
    rw [safe_get_safe_set_self]
    exact lookup_updateFields_mem _ _ hnodup hmem
  · intro hnot
    rw [safe_get_safe_set_self]
    exact lookup_updateFields_not_mem _ _ hnot
  · intro hne
    exact safe_get_safe_set_ne reg jobId F hne
  · intro hnone
    simp [safe_get_job, hnone]
  · intro e he
    simp [safe_get_job, he]

/-- Witness for claim C8: creating a job entry in the empty registry and
reading back its status field. -/
theorem job_registry_upsert_and_snapshot_witness :
    lookupField (safe_get_job (safe_set_job [] "job-1" [("status", "queued")]) "job-1")
      "status" = some "queued" :=
  (job_registry_upsert_and_snapshot [] "job-1" [("status", "queued")]
    "status" "queued" "other").1 (by decide) (by decide)

/-- Processing one job only writes that job's registry entry. -/
theorem safe_get_processJob_ne (reg : Registry) (j : JobSpec) {jid : String}
    (h : jid ≠ j.jobId) :
    safe_get_job (processJob reg j) jid = safe_get_job reg jid := by
  obtain ⟨jid0, s1, s2⟩ := j
  simp only at h
  cases s1 with
  | timeout => simp [processJob, safe_get_safe_set_ne _ _ _ h]
  | raises => simp [processJob, safe_get_safe_set_ne _ _ _ h]
  | exitCode c =>
    by_cases hc : c = 0
    · cases s2 with
      | timeout => simp [processJob, hc, safe_get_safe_set_ne _ _ _ h]
      | raises => simp [processJob, hc, safe_get_safe_set_ne _ _ _ h]
      | exitCode c2 =>
        by_cases hc2 : c2 = 0 <;>
          simp [processJob, hc, hc2, safe_get_safe_set_ne _ _ _ h]
    · simp [processJob, hc, safe_get_safe_set_ne _ _ _ h]

/-- Processing one job leaves its status field at the terminal status the
spec assigns to the outcome of its stages. -/
theorem processJob_status (reg : Registry) (j : JobSpec) :
    lookupField (safe_get_job (processJob reg j) j.jobId) "status"
      = some (expectedFinalStatus j) := by
  obtain ⟨jid0, s1, s2⟩ := j
  have hse : ("status" : String) ≠ "error" := by decide
  cases s1 with
  | timeout =>
    simp [processJob, expectedFinalStatus, safe_get_safe_set_self, updateFields,
      lookup_setField_self, lookup_setField_ne _ _ _ hse]
  | raises =>
    simp [processJob, expectedFinalStatus, safe_get_safe_set_self, updateFields,
      lookup_setField_self]
  | exitCode c =>
    by_cases hc : c = 0
    · cases s2 with
      | timeout =>
        simp [processJob, hc, expectedFinalStatus, safe_get_safe_set_self, updateFields,
          lookup_setField_self, lookup_setField_ne _ _ _ hse]
      | raises =>
        simp [processJob, hc, expectedFinalStatus, safe_get_safe_set_self, updateFields,
          lookup_setField_self]
      | exitCode c2 =>
        by_cases hc2 : c2 = 0 <;>
          simp [processJob, hc, hc2, expectedFinalStatus, safe_get_safe_set_self,
            updateFields, lookup_setField_self, lookup_setField_ne _ _ _ hse]
    · simp [processJob, hc, expectedFinalStatus, safe_get_safe_set_self, updateFields,
        lookup_setField_self, lookup_setField_ne _ _ _ hse]

/-- Jobs not in the queue are untouched by the worker loop. -/
theorem safe_get_worker_thread_not_mem (queue : List JobSpec) (reg : Registry)
    {jid : String} (h : jid ∉ queue.map JobSpec.jobId) :
    safe_get_job (worker_thread queue reg) jid = safe_get_job reg jid := by
  induction queue generalizing reg with
  | nil => rfl
  | cons q rest ih =>
    simp only [List.map_cons, List.mem_cons] at h
    push_neg at h
    rw [worker_thread, ih _ h.2, safe_get_processJob_ne _ _ h.1]

/-- Claim C2: for every queue of jobs with distinct ids, the worker loop
processes every job exactly once and leaves each job at the terminal status
determined by its own stages: failed on a non-zero exit or timeout of either
stage, error on an unexpected exception, done otherwise. In particular a job
whose stage fails does not stop the loop (later jobs still reach their own
terminal status), the loop never crashes (it is a total function), and no
failed job is retried (its final status is the one its single processing
produced). -/
theorem worker_marks_failed_and_continues
    (queue : List JobSpec) (reg : Registry) (j : JobSpec)
    (hnodup : (queue.map JobSpec.jobId).Nodup) (hmem : j ∈ queue) :
    lookupField (safe_get_job (worker_thread queue reg) j.jobId) "status"
      = some (expectedFinalStatus j) := by
  induction queue generalizing reg with
  | nil => cases hmem
  | cons q rest ih =>
    simp only [List.map_cons, List.nodup_cons] at hnodup
    rcases List.mem_cons.1 hmem with rfl | hrest
    · rw [worker_thread, safe_get_worker_thread_not_mem rest _ hnodup.1]
      exact processJob_status reg j
    · rw [worker_thread]
      exact ih _ hnodup.2 hrest

/-- Witness for claim C2: a queue of two jobs in which the first fails its
normalize+pivot stage with exit code 1 and the second job succeeds; the
second job is still processed and marked done. -/
theorem worker_marks_failed_and_continues_witness :
    lookupField
      (safe_get_job
        (worker_thread
          [⟨"a", StageResult.exitCode 1, StageResult.exitCode 0⟩,
           ⟨"b", StageResult.exitCode 0, StageResult.exitCode 0⟩] [])
        "b") "status"
      = some (expectedFinalStatus ⟨"b", StageResult.exitCode 0, StageResult.exitCode 0⟩) :=
  worker_marks_failed_and_continues
    [⟨"a", StageResult.exitCode 1, StageResult.exitCode 0⟩,
     ⟨"b", StageResult.exitCode 0, StageResult.exitCode 0⟩] []
    ⟨"b", StageResult.exitCode 0, StageResult.exitCode 0⟩ (by decide) (by decide)

/-- Claim C9: if the pidfile records the id of a currently alive (non-zero)
process, initialization declines: it returns false, starts no consumer and
leaves the state unchanged, so initializing twice from a clean state with the
first initializer alive yields exactly one running consumer. If the recorded
process is dead, the stale file is replaced by the id of the caller and the
consumer starts. -/
theorem singleton_guard_one_consumer
    (s : GuardState) (p selfPid firstPid secondPid : Nat) :
    (s.pidfile = some (some p) → p ≠ 0 → p ∈ s.alive →
      start_background_worker_once_with_pidfile s selfPid = (false, s))
    ∧ (s.pidfile = some (some p) → p ∉ s.alive →
      start_background_worker_once_with_pidfile s selfPid
        = (true, { s with pidfile := some (some selfPid), consumers := s.consumers + 1 }))
    ∧ (s.pidfile = none → s.consumers = 0 → firstPid ≠ 0 → firstPid ∈ s.alive →
      (start_background_worker_once_with_pidfile
          (start_background_worker_once_with_pidfile s firstPid).2 secondPid).1 = false
      ∧ (start_background_worker_once_with_pidfile
          (start_background_worker_once_with_pidfile s firstPid).2 secondPid).2.consumers
        = 1) := by
  have hmem : ∀ (a : Nat), a ∈ s.alive → s.alive.contains a = true := by
    intro a ha
    simp [List.contains]
    exact ha
  have hmemf : ∀ (a : Nat), a ∉ s.alive → s.alive.contains a = false := by
    intro a ha
    simp [List.contains]
    exact ha
  refine ⟨?_, ?_, ?_⟩
  · intro hp hp0 halive
    simp [start_background_worker_once_with_pidfile, hp, hp0, is_pid_running, hmem p halive]
    exact halive
  · intro hp hdead
    simp [start_background_worker_once_with_pidfile, hp, is_pid_running, hmemf p hdead]
    intro _
    exact hdead
  · intro hp hc h0 halive
    simp [start_background_worker_once_with_pidfile, hp, h0, is_pid_running, hc,
      hmem firstPid halive]
    simp [halive]

/-- Witness for claim C9: a state whose pidfile records the alive process 7;
a second initialization by process 9 declines. -/
theorem singleton_guard_one_consumer_witness :
    start_background_worker_once_with_pidfile
      { pidfile := some (some 7), alive := [7], consumers := 1 } 9
    = (false, { pidfile := some (some 7), alive := [7], consumers := 1 }) :=
  (singleton_guard_one_consumer
    { pidfile := some (some 7), alive := [7], consumers := 1 } 7 9 0 0).1
    (by decide) (by decide) (by decide)

/-- Claim C10: both normalization entry points presuppose the columns
Date_Time, Result, PCode and Station_ID (after header stripping): the
normalization succeeds exactly when all four are present, and a table
missing any of them makes it raise a KeyError (the error case); with all
four present it never raises, coercing unparseable entries to null instead. -/
theorem normalize_requires_canonical_columns (t : RawTable) :
    ((Fintech.normalize t).isOk = true ↔
      ("Date_Time" ∈ strippedHeader t ∧ "Result" ∈ strippedHeader t ∧
        "PCode" ∈ strippedHeader t ∧ "Station_ID" ∈ strippedHeader t))
    ∧ ((normalize_raw_df t).isOk = true ↔
      ("Date_Time" ∈ strippedHeader t ∧ "Result" ∈ strippedHeader t ∧
        "PCode" ∈ strippedHeader t ∧ "Station_ID" ∈ strippedHeader t)) := by
  constructor
  · unfold Fintech.normalize
    dsimp only
    split_ifs with h1 h2 h3 h4 <;> simp_all [Except.isOk, Except.toBool, List.contains]
  · unfold normalize_raw_df
    dsimp only
    split_ifs with h1 h2 h3 h4 <;> simp_all [Except.isOk, Except.toBool, List.contains]

/-- Claim C3 counterexample: an input whose first timestamp parses and whose
second does not. normalize keeps both rows and the second record of the
output carries a null timestamp, so the output of the normalization does
contain a null timestamp and the unparseable row is not dropped. -/
theorem normalize_null_timestamp_counterexample :
    Fintech.normalize ⟨["Date_Time", "Result", "PCode", "Station_ID"],
        [["2021-01-01", "", "P1", "CT"], ["garbage", "", "P1", "CT"]]⟩
      = Except.ok [⟨some "2021-01-01", none, "P1", "CT"⟩, ⟨none, none, "P1", "CT"⟩]
    ∧ (∃ r ∈ ([⟨some "2021-01-01", none, "P1", "CT"⟩, ⟨none, none, "P1", "CT"⟩] : List NormRow),
        r.dateTime = none)
    ∧ ([⟨some "2021-01-01", none, "P1", "CT"⟩, ⟨none, none, "P1", "CT"⟩] : List NormRow).length
      = 2 := by
  refine ⟨by rfl, ⟨⟨none, none, "P1", "CT"⟩, by decide, rfl⟩, rfl⟩

/-- Claim C3 (amended): normalize never drops rows; the output has exactly
one record per input row and the timestamp of the i-th output record is the
coercion of the i-th Date_Time cell — null when the cell fails to parse,
rather than the row being dropped. -/
theorem normalize_coerces_not_drops (t : RawTable) (out : List NormRow)
    (h : Fintech.normalize t = Except.ok out) :
    out.length = t.rows.length
    ∧ ∀ i, i < out.length →
        (out.getD i ⟨none, none, "", ""⟩).dateTime
          = parseTs (rawCell t (t.rows.getD i []) "Date_Time") := by
  unfold Fintech.normalize at h
  dsimp only at h
  split_ifs at h <;> try exact Except.noConfusion h
  injection h with hout
  subst hout
  refine ⟨List.length_map _ _, ?_⟩
  intro i hi
  have hi' : i < t.rows.length := by simpa using hi
  rw [List.getD_eq_getElem _ _ hi, List.getElem_map,
    List.getD_eq_getElem _ _ hi']

/-- Witness for the amended claim C3 at the two-row counterexample table:
the output row count equals the input row count. -/
theorem normalize_coerces_not_drops_witness :
    ([⟨some "2021-01-01", none, "P1", "CT"⟩, ⟨none, none, "P1", "CT"⟩] : List NormRow).length
      = (RawTable.mk ["Date_Time", "Result", "PCode", "Station_ID"]
          [["2021-01-01", "", "P1", "CT"], ["garbage", "", "P1", "CT"]]).rows.length :=
  (normalize_coerces_not_drops
    ⟨["Date_Time", "Result", "PCode", "Station_ID"],
      [["2021-01-01", "", "P1", "CT"], ["garbage", "", "P1", "CT"]]⟩
    [⟨some "2021-01-01", none, "P1", "CT"⟩, ⟨none, none, "P1", "CT"⟩] (by rfl)).1

/-- Claim C7 counterexample: a two-row table with no timestamp-like column.
The synthetic Date_Time column created by ensure_datetime_column starts at
the fixed date 2025-01-01 and increases by one hour per row: the timestamps
count forward from a constant start, not backward from the current time. -/
theorem ensure_datetime_synthetic_counterexample :
    (ensure_datetime_column ⟨["a", "b"], [["x", "y"], ["z", "w"]]⟩).newDateTime
      = some [some secs2025, some (secs2025 + 3600)]
    ∧ secs2025 < secs2025 + 3600 := by
  constructor
  · rfl
  · omega

/-- Claim C7 (amended): when the input has no Date_Time column and no
timestamp-like column, ensure_datetime_column creates one synthetic
timestamp per input row, drops no row, and the timestamps are evenly spaced
one hour apart counting forward from the fixed start 2025-01-01 (the i-th
entry is that start plus i hours, so each entry exceeds its predecessor by
3600 seconds). -/
theorem ensure_datetime_synthetic_forward (t : RawTable)
    (h1 : t.header.contains "Date_Time" = false)
    (h2 : t.header.filter isTimestampLike = []) :
    (ensure_datetime_column t).newDateTime
      = some ((List.range t.rows.length).map (fun i => some (secs2025 + 3600 * Int.ofNat i)))
    ∧ (ensure_datetime_column t).rows = t.rows
    ∧ ∀ l, (ensure_datetime_column t).newDateTime = some l →
        ∀ i, i + 1 < l.length →
          l.getD (i + 1) none = (l.getD i none).map (fun v => v + 3600) := by
  have h1x : ¬ ("Date_Time" ∈ t.header) := by
    simp [List.contains] at h1
    exact h1
  have hsel : ensure_datetime_column t
      = { header := t.header, rows := t.rows,
          newDateTime := some ((List.range t.rows.length).map
            (fun i => some (secs2025 + 3600 * Int.ofNat i))) } := by
    rw [ensure_datetime_column]
    rw [if_neg (by simpa [List.contains] using h1x), h2]
  refine ⟨by rw [hsel], by rw [hsel], ?_⟩
  intro l hl i hi
  rw [hsel] at hl
  simp only [Option.some.injEq] at hl
  subst hl
  have hlen2 : ((List.range t.rows.length).map
      (fun i => some (secs2025 + 3600 * Int.ofNat i))).length = t.rows.length := by
    rw [List.length_map, List.length_range]
  rw [hlen2] at hi
  have hleni : i < t.rows.length := Nat.lt_of_succ_lt hi
  rw [List.getD_eq_getElem _ _ (by rw [hlen2]; exact hi),
    List.getD_eq_getElem _ _ (by rw [hlen2]; exact hleni),
    List.getElem_map, List.getElem_map, List.getElem_range, List.getElem_range]
  have hmap : Option.map (fun v => v + 3600) (some (secs2025 + 3600 * Int.ofNat i))
      = some (secs2025 + 3600 * Int.ofNat i + 3600) := rfl
  rw [hmap, Option.some_inj]
  simp only [Int.ofNat_eq_natCast]
  push_cast
  ring

/-- Witness for the amended claim C7: the concrete two-row table with no
timestamp-like header gets the two synthetic hourly timestamps. -/
theorem ensure_datetime_synthetic_forward_witness :
    (ensure_datetime_column ⟨["a", "b"], [["x", "y"], ["z", "w"]]⟩).newDateTime
      = some ((List.range 2).map (fun i => some (secs2025 + 3600 * Int.ofNat i))) :=
  (ensure_datetime_synthetic_forward ⟨["a", "b"], [["x", "y"], ["z", "w"]]⟩
    (by decide) (by decide)).1

/-- Appending to a fixed string on the left is injective. -/
theorem string_append_left_cancel {a x y : String} (h : a ++ x = a ++ y) : x = y := by
  have hd := congrArg String.data h
  simp only [String.data_append] at hd
  exact String.ext (List.append_cancel_left hd)

/-- Claim C5 counterexample: two rows that differ in the value field — the
integer 5 against the string 5 — produce the same serialized string under
row.get with default and str(), hence the same hash: a change to the value
field does not always change the hash. -/
theorem compute_row_hash_value_change_counterexample :
    ([("Station_ID", PyVal.s "CT"), ("Date_Time", PyVal.s "2021-01-01"),
        ("PCode", PyVal.s "P1"), ("Result", PyVal.i 5)] : PyRow).lookup "Result"
      ≠ ([("Station_ID", PyVal.s "CT"), ("Date_Time", PyVal.s "2021-01-01"),
        ("PCode", PyVal.s "P1"), ("Result", PyVal.s "5")] : PyRow).lookup "Result"
    ∧ compute_row_hash
        [("Station_ID", PyVal.s "CT"), ("Date_Time", PyVal.s "2021-01-01"),
          ("PCode", PyVal.s "P1"), ("Result", PyVal.i 5)]
      = compute_row_hash
        [("Station_ID", PyVal.s "CT"), ("Date_Time", PyVal.s "2021-01-01"),
          ("PCode", PyVal.s "P1"), ("Result", PyVal.s "5")] := by
  constructor
  · decide
  · have hpre : rowHashPreimage
        [("Station_ID", PyVal.s "CT"), ("Date_Time", PyVal.s "2021-01-01"),
          ("PCode", PyVal.s "P1"), ("Result", PyVal.i 5)]
        = rowHashPreimage
        [("Station_ID", PyVal.s "CT"), ("Date_Time", PyVal.s "2021-01-01"),
          ("PCode", PyVal.s "P1"), ("Result", PyVal.s "5")] := by decide
    exact congrArg sha256hex hpre

/-- Claim C5 (amended): compute_row_hash is a pure function of exactly the
four fields as read with default empty string and rendered by str: any two
rows agreeing on those four fields produce identical hashes; and a change to
the value field that changes its string rendering changes the serialized
pre-image fed to SHA-256 (a change whose rendering coincides, such as the
integer 5 against the string 5, leaves the hash unchanged). -/
theorem compute_row_hash_pure_function (r1 r2 : PyRow) :
    ((r1.lookup "Station_ID" = r2.lookup "Station_ID") →
      (r1.lookup "Date_Time" = r2.lookup "Date_Time") →
      (r1.lookup "PCode" = r2.lookup "PCode") →
      (r1.lookup "Result" = r2.lookup "Result") →
      compute_row_hash r1 = compute_row_hash r2)
    ∧ ((r1.lookup "Station_ID" = r2.lookup "Station_ID") →
      (r1.lookup "Date_Time" = r2.lookup "Date_Time") →
      (r1.lookup "PCode" = r2.lookup "PCode") →
      rowGetStr r1 "Result" ≠ rowGetStr r2 "Result" →
      rowHashPreimage r1 ≠ rowHashPreimage r2) := by
  constructor
  · intro h1 h2 h3 h4
    have hpre : rowHashPreimage r1 = rowHashPreimage r2 := by
      unfold rowHashPreimage rowGetStr
      rw [h1, h2, h3, h4]
    exact congrArg sha256hex hpre
  · intro h1 h2 h3 h4 heq
    apply h4
    unfold rowHashPreimage rowGetStr at heq
    rw [h1, h2, h3] at heq
    unfold rowGetStr
    exact string_append_left_cancel heq

/-- Witness for the amended claim C5: a row with an extra column and a row
without it agree on the four hashed fields, so their hashes coincide. -/
theorem compute_row_hash_pure_function_witness :
    compute_row_hash
      [("Station_ID", PyVal.s "CT"), ("Date_Time", PyVal.s "2021-01-01"),
        ("PCode", PyVal.s "P1"), ("Result", PyVal.i 5), ("Extra", PyVal.s "z")]
    = compute_row_hash
      [("Station_ID", PyVal.s "CT"), ("Date_Time", PyVal.s "2021-01-01"),
        ("PCode", PyVal.s "P1"), ("Result", PyVal.i 5)] :=
  (compute_row_hash_pure_function
    [("Station_ID", PyVal.s "CT"), ("Date_Time", PyVal.s "2021-01-01"),
      ("PCode", PyVal.s "P1"), ("Result", PyVal.i 5), ("Extra", PyVal.s "z")]
    [("Station_ID", PyVal.s "CT"), ("Date_Time", PyVal.s "2021-01-01"),
      ("PCode", PyVal.s "P1"), ("Result", PyVal.i 5)]).1
    (by decide) (by decide) (by decide) (by decide)
